import Mathlib

set_option linter.unusedVariables false

/-!
Shallow embedding of the activity-ledger and derived-statistics core of the
Fitness repository (server/storage.ts, server/routes.ts, shared/schema.ts).

Timestamps (`Date` values) are modelled as integer milliseconds since the
epoch.  `Date.setHours(0,0,0,0)` becomes flooring to the start of the day and
`Math.floor` on integer ratios becomes `Int.fdiv`.  JS `Map`s are modelled as
association lists in insertion order (`Map.set` replaces in place when the key
exists, otherwise appends; `Map.values()` iterates in insertion order).
`Array.prototype.sort` with a numeric comparator is a stable sort; a stable
sort of a list under a total preorder has a unique result, so it is modelled
with `List.insertionSort` (which is stable).  JS `x || d` treats `null`,
`undefined` and `0` as falsy.  Floating-point numbers are modelled as `ℚ`.
-/

namespace Fitness

/-! ### JS semantics helpers -/

/-- One day in milliseconds (`1000 * 60 * 60 * 24`). -/
def msPerDay : Int := 86400000

/-- The calendar-day index of a timestamp (timezone-naive day boundaries). -/
def dayIndex (t : Int) : Int := Int.fdiv t msPerDay

/-- `new Date(t)` followed by `setHours(0,0,0,0)`: the timestamp of the start
of the calendar day containing `t`. -/
def dayStart (t : Int) : Int := msPerDay * dayIndex t

/-- JS `x || d` for a present number `x` (`0` is falsy). -/
def jsOrInt (x : Int) (d : Int) : Int := if x = 0 then d else x

/-- JS `x || d` where `x` is a possibly absent number (`null`/`undefined`/`0`
are falsy). -/
def jsOrIntOpt (x : Option Int) (d : Int) : Int :=
  match x with
  | some v => if v = 0 then d else v
  | none => d

/-- JS `x || d` for a possibly absent rational (`null`/`undefined`/`0`
are falsy). -/
def jsOrQ (x : Option ℚ) (d : ℚ) : ℚ :=
  match x with
  | some v => if v = 0 then d else v
  | none => d

/-- JS truthiness of a possibly absent number. -/
def truthyQ (x : Option ℚ) : Bool :=
  match x with
  | some v => decide (v ≠ 0)
  | none => false

/-- JS `a || b` where both sides are possibly absent numbers. -/
def jsOrOptQ (a b : Option ℚ) : Option ℚ := if truthyQ a then a else b

/-- JS `Math.round`: round half toward positive infinity. -/
def jsRound (q : ℚ) : Int := ⌊q + 1/2⌋

/-- `Math.round(q * 10) / 10`: round to one decimal place. -/
def round1 (q : ℚ) : ℚ := (jsRound (q * 10) : ℚ) / 10

/-! ### JS `Map` as an association list in insertion order -/

/-- JS `Map.set`: replace in place when the key is present, else append. -/
def mapSet (key : α → String) (l : List α) (id : String) (v : α) : List α :=
  if l.any (fun x => decide (key x = id)) then
    l.map (fun x => if key x = id then v else x)
  else l ++ [v]

/-- JS `Map.get`: the first (only) entry with the given key. -/
def mapGet (key : α → String) (l : List α) (id : String) : Option α :=
  l.find? (fun x => decide (key x = id))

/-- JS `Map.delete`: whether the key was present, and the remaining entries. -/
def mapDelete (key : α → String) (l : List α) (id : String) : Bool × List α :=
  (l.any (fun x => decide (key x = id)), l.filter (fun x => decide (key x ≠ id)))

/-! ### Stable sorting by an integer key

`(a, b) => key(b) - key(a)` sorts most-recent-first (descending key);
`(a, b) => key(a) - key(b)` sorts ascending.  JS `sort` lets `a` precede `b`
exactly when the comparator is `≤ 0`. -/

/-- Comparator relation of `(a, b) => key(b) - key(a)`: `a` may precede `b`. -/
def byKeyDesc (key : α → Int) (a b : α) : Prop := key b ≤ key a

/-- Comparator relation of `(a, b) => key(a) - key(b)`: `a` may precede `b`. -/
def byKeyAsc (key : α → Int) (a b : α) : Prop := key a ≤ key b

instance (key : α → Int) : DecidableRel (byKeyDesc key) := fun a b => Int.decLe _ _

instance (key : α → Int) : DecidableRel (byKeyAsc key) := fun a b => Int.decLe _ _

instance (key : α → Int) : IsTotal α (byKeyDesc key) := ⟨fun a b => le_total _ _⟩

instance (key : α → Int) : IsTotal α (byKeyAsc key) := ⟨fun a b => le_total _ _⟩

instance (key : α → Int) : IsTrans α (byKeyDesc key) := ⟨fun _ _ _ h1 h2 => le_trans h2 h1⟩

instance (key : α → Int) : IsTrans α (byKeyAsc key) := ⟨fun _ _ _ h1 h2 => le_trans h1 h2⟩

/-- `array.sort((a, b) => key(b) - key(a))`: stable, most-recent-first. -/
def sortByDesc (key : α → Int) (l : List α) : List α :=
  List.insertionSort (byKeyDesc key) l

/-- `array.sort((a, b) => key(a) - key(b))`: stable, ascending. -/
def sortByAsc (key : α → Int) (l : List α) : List α :=
  List.insertionSort (byKeyAsc key) l

/-! ### Data model (shared/schema.ts, as materialized by MemStorage)

`MemStorage.createUser` always initializes `currentStreak`/`longestStreak`
to `0` and `updateUserStreak` writes integers, so the two streak fields are
modelled as plain integers. -/

structure User where
  id : String
  username : String
  email : String
  firstName : String
  lastName : String
  password : String
  fitnessGoals : List String
  currentWeight : Option ℚ
  targetWeight : Option ℚ
  workoutFrequency : Option Int
  currentStreak : Int
  longestStreak : Int
  createdAt : Int
deriving DecidableEq

structure Workout where
  id : String
  userId : String
  name : String
  type : String
  duration : Int
  exercises : String
  notes : Option String
  createdAt : Int
deriving DecidableEq

structure HealthMetrics where
  id : String
  userId : String
  weight : Option ℚ
  sleepHours : Option ℚ
  sleepQuality : Option String
  waterIntake : Option Int
  notes : Option String
  createdAt : Int
deriving DecidableEq

structure ScheduledWorkout where
  id : String
  userId : String
  name : String
  type : String
  scheduledDate : Int
  duration : Int
  completed : Int
  createdAt : Int
deriving DecidableEq

/-- `InsertUser` (`insertUserSchema`: user fields minus id, streaks, createdAt). -/
structure InsertUser where
  username : String
  email : String
  firstName : String
  lastName : String
  password : String
  fitnessGoals : List String
  currentWeight : Option ℚ
  targetWeight : Option ℚ
  workoutFrequency : Option Int
deriving DecidableEq

/-- `InsertWorkout` (`insertWorkoutSchema`: workout fields minus id, createdAt). -/
structure InsertWorkout where
  userId : String
  name : String
  type : String
  duration : Int
  exercises : String
  notes : Option String
deriving DecidableEq

/-- `Partial<User>`: each field optionally present (present fields overwrite). -/
structure UserPatch where
  id : Option String := none
  username : Option String := none
  email : Option String := none
  firstName : Option String := none
  lastName : Option String := none
  password : Option String := none
  fitnessGoals : Option (List String) := none
  currentWeight : Option (Option ℚ) := none
  targetWeight : Option (Option ℚ) := none
  workoutFrequency : Option (Option Int) := none
  currentStreak : Option Int := none
  longestStreak : Option Int := none
  createdAt : Option Int := none
deriving DecidableEq

/-- `{ ...user, ...updates }`: fields present in the patch overwrite. -/
def applyPatch (u : User) (p : UserPatch) : User :=
  { id := p.id.getD u.id
    username := p.username.getD u.username
    email := p.email.getD u.email
    firstName := p.firstName.getD u.firstName
    lastName := p.lastName.getD u.lastName
    password := p.password.getD u.password
    fitnessGoals := p.fitnessGoals.getD u.fitnessGoals
    currentWeight := p.currentWeight.getD u.currentWeight
    targetWeight := p.targetWeight.getD u.targetWeight
    workoutFrequency := p.workoutFrequency.getD u.workoutFrequency
    currentStreak := p.currentStreak.getD u.currentStreak
    longestStreak := p.longestStreak.getD u.longestStreak
    createdAt := p.createdAt.getD u.createdAt }

/-- The four entity collections of `MemStorage`, each a JS `Map` in insertion
order.  (The session store is authentication plumbing, out of scope.) -/
structure MemStorage where
  users : List User
  workouts : List Workout
  healthMetrics : List HealthMetrics
  scheduledWorkouts : List ScheduledWorkout
deriving DecidableEq

/-! ### MemStorage operations (server/storage.ts) -/

/-- `getUser(id)`. -/
def getUser (s : MemStorage) (id : String) : Option User :=
  mapGet User.id s.users id

/-- `createUser(insertUser)`: generated `id` and creation time are explicit
parameters (`randomUUID()` / `new Date()`). -/
def createUser (s : MemStorage) (iu : InsertUser) (id : String) (now : Int) :
    User × MemStorage :=
  let user : User :=
    { id := id
      username := iu.username
      email := iu.email
      firstName := iu.firstName
      lastName := iu.lastName
      password := iu.password
      fitnessGoals := iu.fitnessGoals
      currentWeight := iu.currentWeight
      targetWeight := iu.targetWeight
      workoutFrequency := iu.workoutFrequency
      currentStreak := 0
      longestStreak := 0
      createdAt := now }
  (user, { s with users := mapSet User.id s.users id user })

/-- `updateUser(id, updates)`. -/
def updateUser (s : MemStorage) (id : String) (p : UserPatch) :
    Option User × MemStorage :=
  match getUser s id with
  | none => (none, s)
  | some u =>
    let updated := applyPatch u p
    (some updated, { s with users := mapSet User.id s.users id updated })

/-- The user's workouts in insertion order (`Array.from(values()).filter`). -/
def workoutsOf (s : MemStorage) (userId : String) : List Workout :=
  s.workouts.filter (fun w => decide (w.userId = userId))

/-- `getWorkoutsByUserId(userId)`: filtered, then sorted most-recent-first by
`createdAt`. -/
def getWorkoutsByUserId (s : MemStorage) (userId : String) : List Workout :=
  sortByDesc Workout.createdAt (workoutsOf s userId)

/-- `getWorkout(id)`. -/
def getWorkout (s : MemStorage) (id : String) : Option Workout :=
  mapGet Workout.id s.workouts id

/-- The Workout record built by `createWorkout`. -/
def newWorkout (iw : InsertWorkout) (id : String) (now : Int) : Workout :=
  { id := id
    userId := iw.userId
    name := iw.name
    type := iw.type
    duration := iw.duration
    exercises := iw.exercises
    notes := iw.notes
    createdAt := now }

/-- The body of the `for` loop of `updateUserStreak`: walking the sorted
workouts with index `i`, count while `daysDiff === i`, else break. -/
def currentStreakLoop (todayStart : Int) : List Workout → Int → Int
  | [], _ => 0
  | w :: rest, i =>
    if Int.fdiv (todayStart - dayStart w.createdAt) msPerDay = i then
      1 + currentStreakLoop todayStart rest (i + 1)
    else 0

/-- The `currentStreak` value computed by `updateUserStreak` from the store:
the user's workouts (already sorted by `getWorkoutsByUserId`) are sorted again
with the same comparator and walked from index 0. -/
def computedCurrentStreak (s : MemStorage) (userId : String) (now : Int) : Int :=
  currentStreakLoop (dayStart now)
    (sortByDesc Workout.createdAt (getWorkoutsByUserId s userId)) 0

/-- `updateUserStreak(userId)` (private helper, run at time `now`): returns
silently when the user is unknown, else recomputes `currentStreak`, ratchets
`longestStreak = max(longestStreak || 0, currentStreak)` and writes both back
through `updateUser`. -/
def updateUserStreak (s : MemStorage) (userId : String) (now : Int) : MemStorage :=
  match getUser s userId with
  | none => s
  | some user =>
    let cs := computedCurrentStreak s userId now
    let ls := max (jsOrInt user.longestStreak 0) cs
    (updateUser s userId { currentStreak := some cs, longestStreak := some ls }).2

/-- `createWorkout(insertWorkout)`: inserts the workout, then updates the
owning user's streak. -/
def createWorkout (s : MemStorage) (iw : InsertWorkout) (id : String) (now : Int) :
    Workout × MemStorage :=
  let w := newWorkout iw id now
  let s1 : MemStorage := { s with workouts := mapSet Workout.id s.workouts id w }
  (w, updateUserStreak s1 iw.userId now)

/-- A sequence of `createWorkout` calls (insert data, generated id, time). -/
def createWorkouts (s : MemStorage) : List (InsertWorkout × String × Int) → MemStorage
  | [] => s
  | (iw, id, now) :: rest => createWorkouts (createWorkout s iw id now).2 rest

/-- `deleteWorkout(id)`. -/
def deleteWorkout (s : MemStorage) (id : String) : Bool × MemStorage :=
  let r := mapDelete Workout.id s.workouts id
  (r.1, { s with workouts := r.2 })

/-- The user's health metrics in insertion order. -/
def healthMetricsOf (s : MemStorage) (userId : String) : List HealthMetrics :=
  s.healthMetrics.filter (fun m => decide (m.userId = userId))

/-- `getHealthMetricsByUserId(userId)`: filtered, sorted most-recent-first. -/
def getHealthMetricsByUserId (s : MemStorage) (userId : String) : List HealthMetrics :=
  sortByDesc HealthMetrics.createdAt (healthMetricsOf s userId)

/-- `getLatestHealthMetrics(userId)`: `metrics[0]` of the sorted listing. -/
def getLatestHealthMetrics (s : MemStorage) (userId : String) : Option HealthMetrics :=
  (getHealthMetricsByUserId s userId).head?

/-- The user's scheduled workouts in insertion order. -/
def scheduledWorkoutsOf (s : MemStorage) (userId : String) : List ScheduledWorkout :=
  s.scheduledWorkouts.filter (fun w => decide (w.userId = userId))

/-- `getScheduledWorkoutsByUserId(userId)`: filtered, sorted soonest-first by
`scheduledDate`. -/
def getScheduledWorkoutsByUserId (s : MemStorage) (userId : String) : List ScheduledWorkout :=
  sortByAsc ScheduledWorkout.scheduledDate (scheduledWorkoutsOf s userId)

/-! ### API routes (server/routes.ts) -/

/-- `POST /api/workouts`: the request body's `userId` is overwritten with the
authenticated user's id, then `storage.createWorkout` is called; the route
performs no further orchestration. -/
def routePostWorkout (s : MemStorage) (requesterId : String) (body : InsertWorkout)
    (id : String) (now : Int) : Workout × MemStorage :=
  createWorkout s { body with userId := requesterId } id now

/-- `DELETE /api/workouts/:id`: 404 (`none`) when the workout is missing or
owned by another user, else delete. -/
def routeDeleteWorkout (s : MemStorage) (requesterId : String) (id : String) :
    Option Bool × MemStorage :=
  match getWorkout s id with
  | none => (none, s)
  | some w =>
    if w.userId ≠ requesterId then (none, s)
    else
      let r := deleteWorkout s id
      (some r.1, r.2)

/-- `PATCH /api/user/profile`: the request body is passed to `updateUser`
unchanged. -/
def routePatchProfile (s : MemStorage) (requesterId : String) (body : UserPatch) :
    Option User × MemStorage :=
  updateUser s requesterId body

/-- The shape returned by `GET /api/dashboard/stats`. -/
structure DashboardStats where
  currentStreak : Int
  longestStreak : Int
  weeklyWorkouts : Nat
  totalWorkouts : Nat
  weightProgress : ℚ
  currentWeight : Option ℚ
  targetWeight : Option ℚ
deriving DecidableEq

/-- `GET /api/dashboard/stats` at time `now`, in state-passing style: every
storage call it makes is a read, returning the store as the code leaves it. -/
def getDashboardStats (s : MemStorage) (userId : String) (now : Int) :
    DashboardStats × MemStorage :=
  let user := getUser s userId
  let workouts := getWorkoutsByUserId s userId
  let latestMetrics := getLatestHealthMetrics s userId
  let oneWeekAgo := now - 7 * msPerDay
  let weeklyWorkouts := (workouts.filter (fun w => decide (oneWeekAgo ≤ w.createdAt))).length
  let metrics := getHealthMetricsByUserId s userId
  let userCW := user.bind User.currentWeight
  let weightProgress : ℚ :=
    if 2 ≤ metrics.length ∧ truthyQ userCW = true then
      let oldestWeight := jsOrQ (metrics.getLast?.bind HealthMetrics.weight) (userCW.getD 0)
      let latestWeight := jsOrQ (latestMetrics.bind HealthMetrics.weight) (userCW.getD 0)
      latestWeight - oldestWeight
    else 0
  ({ currentStreak := jsOrIntOpt (user.map User.currentStreak) 0
     longestStreak := jsOrIntOpt (user.map User.longestStreak) 0
     weeklyWorkouts := weeklyWorkouts
     totalWorkouts := workouts.length
     weightProgress := round1 weightProgress
     currentWeight := jsOrOptQ (latestMetrics.bind HealthMetrics.weight) userCW
     targetWeight := user.bind User.targetWeight }, s)

/-! ### Abbreviations used to state the claims -/

/-- The day indices of the user's workouts, in insertion order. -/
def activeDayList (s : MemStorage) (userId : String) : List Int :=
  (workoutsOf s userId).map (fun w => dayIndex w.createdAt)

/-- Streak-field consistency of every stored user. -/
def userInv (s : MemStorage) : Prop :=
  ∀ u ∈ s.users, u.currentStreak ≤ u.longestStreak

/-- The streak loop viewed on the list of day differences only. -/
def streakOffsets : List Int → Int → Int
  | [], _ => 0
  | o :: rest, i => if o = i then 1 + streakOffsets rest (i + 1) else 0

/-- The user record written back by `updateUserStreak`. -/
def streakUpdatedUser (u : User) (cs : Int) : User :=
  { u with currentStreak := cs, longestStreak := max (jsOrInt u.longestStreak 0) cs }

/-! ### Concrete example data, used for closed instances of the claims.
`exNow` is 01:00 on day 20000 of the epoch. -/

def exNow : Int := 86400000 * 20000 + 3600000

def exUser (id : String) (cs ls : Int) : User :=
  { id := id, username := id, email := id, firstName := "F", lastName := "L",
    password := "pw", fitnessGoals := [], currentWeight := none, targetWeight := none,
    workoutFrequency := none, currentStreak := cs, longestStreak := ls, createdAt := 0 }

def exWorkout (id uid : String) (t : Int) : Workout :=
  { id := id, userId := uid, name := "Run", type := "Cardio", duration := 30,
    exercises := "[]", notes := none, createdAt := t }

def exInsertWorkout (uid : String) : InsertWorkout :=
  { userId := uid, name := "Run", type := "Cardio", duration := 30,
    exercises := "[]", notes := none }

def exMetric (id uid : String) (w : Option ℚ) (t : Int) : HealthMetrics :=
  { id := id, userId := uid, weight := w, sleepHours := none, sleepQuality := none,
    waterIntake := none, notes := none, createdAt := t }

def exSched (id uid : String) (d : Int) : ScheduledWorkout :=
  { id := id, userId := uid, name := "Run", type := "Cardio", scheduledDate := d,
    duration := 30, completed := 0, createdAt := 0 }

/-- One workout yesterday and one earlier today; inserting a second workout
for today exercises the same-day handling of the streak scan. -/
def c1Store : MemStorage :=
  { users := [exUser "u1" 0 0],
    workouts := [exWorkout "w1" "u1" (86400000 * 19999 + 100),
                 exWorkout "w2" "u1" (86400000 * 20000 + 100)],
    healthMetrics := [], scheduledWorkouts := [] }

/-- One workout on each of the three consecutive days 19998, 19999, 20000. -/
def c2Store : MemStorage :=
  { users := [exUser "u1" 0 0],
    workouts := [exWorkout "w1" "u1" (86400000 * 19998 + 100),
                 exWorkout "w2" "u1" (86400000 * 19999 + 200),
                 exWorkout "w3" "u1" (86400000 * 20000 + 300)],
    healthMetrics := [], scheduledWorkouts := [] }

/-- A single workout yesterday, none today. -/
def c2StoreGap : MemStorage :=
  { users := [exUser "u1" 0 0],
    workouts := [exWorkout "w1" "u1" (86400000 * 19999 + 100)],
    healthMetrics := [], scheduledWorkouts := [] }

/-- One user with a fresh profile and no activity. -/
def soloStore : MemStorage :=
  { users := [exUser "u1" 0 0], workouts := [], healthMetrics := [],
    scheduledWorkouts := [] }

/-- A profile-update body that writes only `currentStreak`. -/
def c4Patch : UserPatch := { currentStreak := some 5 }

def c5User : User := { exUser "u1" 0 0 with currentWeight := some 180 }

/-- User at 180 lbs with two weight records: 178 (older), then 175 (newer). -/
def c5Store : MemStorage :=
  { users := [c5User],
    workouts := [],
    healthMetrics := [exMetric "m1" "u1" (some 178) (86400000 * 19990 + 100),
                      exMetric "m2" "u1" (some 175) (86400000 * 19995 + 100)],
    scheduledWorkouts := [] }

def emptyStore : MemStorage :=
  { users := [], workouts := [], healthMetrics := [], scheduledWorkouts := [] }

def exInsertUser : InsertUser :=
  { username := "alice", email := "a@x", firstName := "F", lastName := "L",
    password := "pw", fitnessGoals := [], currentWeight := none, targetWeight := none,
    workoutFrequency := none }

/-- A profile-update body that does not touch the streak fields. -/
def c4GoodPatch : UserPatch := { currentWeight := some (some 170) }

/-- Two workouts on the same day (today) and nothing else. -/
def c1aStore : MemStorage :=
  { users := [exUser "u1" 0 0],
    workouts := [exWorkout "w1" "u1" (86400000 * 20000 + 100),
                 exWorkout "w2" "u1" (86400000 * 20000 + 200)],
    healthMetrics := [], scheduledWorkouts := [] }

/-- Two workouts today and one yesterday. -/
def c1bStore : MemStorage :=
  { users := [exUser "u1" 0 0],
    workouts := [exWorkout "w1" "u1" (86400000 * 19999 + 100),
                 exWorkout "w2" "u1" (86400000 * 20000 + 100),
                 exWorkout "w3" "u1" (86400000 * 20000 + 3600000)],
    healthMetrics := [], scheduledWorkouts := [] }

/-- Records with tied timestamps, to exhibit stable ordering. -/
def c7Store : MemStorage :=
  { users := [],
    workouts := [exWorkout "a" "u1" 100, exWorkout "b" "u1" 100, exWorkout "c" "u1" 50],
    healthMetrics := [exMetric "m1" "u1" none 70, exMetric "m2" "u1" none 70],
    scheduledWorkouts := [exSched "s1" "u1" 300, exSched "s2" "u1" 300] }

/-! ### Helper lemmas: association-list maps -/

theorem find?_map_congr (p : α → Bool) (f : α → α) (hp : ∀ x, p (f x) = p x)
    (hf : ∀ x, p x = true → f x = x) :
    ∀ l : List α, (l.map f).find? p = l.find? p
  | [] => rfl
  | x :: xs => by
    cases hx : p x with
    | false =>
      rw [List.map_cons,
        List.find?_cons_of_neg _ (by rw [hp x, hx]; exact Bool.false_ne_true),
        List.find?_cons_of_neg _ (by rw [hx]; exact Bool.false_ne_true)]
      exact find?_map_congr p f hp hf xs
    | true =>
      rw [List.map_cons, List.find?_cons_of_pos _ ((hp x).trans hx),
        List.find?_cons_of_pos _ hx, hf x hx]

theorem find?_append_sing (p : α → Bool) (v : α) (hv : p v = false) :
    ∀ l : List α, (l ++ [v]).find? p = l.find? p
  | [] => by simp [List.find?, hv]
  | x :: xs => by
    cases hx : p x with
    | false =>
      rw [List.cons_append,
        List.find?_cons_of_neg _ (by rw [hx]; exact Bool.false_ne_true),
        List.find?_cons_of_neg _ (by rw [hx]; exact Bool.false_ne_true)]
      exact find?_append_sing p v hv xs
    | true =>
      rw [List.cons_append, List.find?_cons_of_pos _ hx, List.find?_cons_of_pos _ hx]

theorem find?_append_last (p : α → Bool) (v : α) (hv : p v = true) :
    ∀ l : List α, (∀ x ∈ l, p x = false) → (l ++ [v]).find? p = some v
  | [], _ => by simp [List.find?, hv]
  | x :: xs, h => by
    rw [List.cons_append,
      List.find?_cons_of_neg _
        (by rw [h x (List.mem_cons_self _ _)]; exact Bool.false_ne_true)]
    exact find?_append_last p v hv xs (fun y hy => h y (List.mem_cons_of_mem _ hy))

theorem find?_replace (key : α → String) (id : String) (v : α) (hv : key v = id) :
    ∀ l : List α, l.any (fun x => decide (key x = id)) = true →
      (l.map (fun x => if key x = id then v else x)).find?
        (fun x => decide (key x = id)) = some v
  | [], h => by simp at h
  | x :: xs, h => by
    by_cases hx : key x = id
    · rw [List.map_cons, if_pos hx, List.find?_cons_of_pos _ (by simpa using hv)]
    · simp only [List.any_cons, Bool.or_eq_true, decide_eq_true_eq] at h
      rcases h with h | h
      · exact absurd h hx
      · rw [List.map_cons, if_neg hx, List.find?_cons_of_neg _ (by simpa using hx)]
        exact find?_replace key id v hv xs h

theorem mapGet_mapSet_self (key : α → String) (l : List α) (id : String) (v : α)
    (hv : key v = id) : mapGet key (mapSet key l id v) id = some v := by
  unfold mapSet mapGet
  by_cases h : l.any (fun x => decide (key x = id)) = true
  · rw [if_pos h]
    exact find?_replace key id v hv l h
  · rw [if_neg h]
    refine find?_append_last _ v (by simpa using hv) l ?_
    intro x hx
    simp only [decide_eq_false_iff_not]
    intro hkx
    exact h (List.any_eq_true.mpr ⟨x, hx, by simpa using hkx⟩)

theorem mapGet_mapSet_ne (key : α → String) (l : List α) (id uid : String) (v : α)
    (hv : key v = id) (hne : uid ≠ id) :
    mapGet key (mapSet key l id v) uid = mapGet key l uid := by
  unfold mapSet mapGet
  by_cases h : l.any (fun x => decide (key x = id)) = true
  · rw [if_pos h]
    refine find?_map_congr _ _ ?_ ?_ l
    · intro x
      by_cases hx : key x = id
      · rw [if_pos hx]
        have h1 : ¬ key v = uid := fun e => hne (e.symm.trans hv)
        have h2 : ¬ key x = uid := fun e => hne (e.symm.trans hx)
        simp [h1, h2]
      · rw [if_neg hx]
    · intro x hx
      have hku : key x = uid := by simpa using hx
      rw [if_neg (fun e => hne (hku.symm.trans e))]
  · rw [if_neg h]
    have hvu : ¬ key v = uid := fun e => hne (e.symm.trans hv)
    exact find?_append_sing _ v (by simpa using hvu) l

theorem mem_mapSet {x v : α} {key : α → String} {l : List α} {id : String}
    (h : x ∈ mapSet key l id v) : x = v ∨ x ∈ l := by
  unfold mapSet at h
  by_cases hc : l.any (fun y => decide (key y = id)) = true
  · rw [if_pos hc] at h
    rcases List.mem_map.mp h with ⟨y, hy, hxy⟩
    by_cases hky : key y = id
    · rw [if_pos hky] at hxy
      exact Or.inl hxy.symm
    · rw [if_neg hky] at hxy
      exact Or.inr (hxy ▸ hy)
  · rw [if_neg hc] at h
    rcases List.mem_append.mp h with h | h
    · exact Or.inr h
    · exact Or.inl (List.mem_singleton.mp h)

/-! ### Helper lemmas: day arithmetic -/

theorem msPerDay_pos : (0 : Int) < msPerDay := by norm_num [msPerDay]

theorem dayIndex_mono {a b : Int} (h : a ≤ b) : dayIndex a ≤ dayIndex b := by
  unfold dayIndex
  rw [Int.fdiv_eq_ediv _ (le_of_lt msPerDay_pos), Int.fdiv_eq_ediv _ (le_of_lt msPerDay_pos)]
  exact Int.ediv_le_ediv msPerDay_pos h

theorem daysDiff_eq (a b : Int) :
    Int.fdiv (dayStart a - dayStart b) msPerDay = dayIndex a - dayIndex b := by
  have h : dayStart a - dayStart b = msPerDay * (dayIndex a - dayIndex b) := by
    unfold dayStart; ring
  rw [h, Int.mul_fdiv_cancel_left _ (ne_of_gt msPerDay_pos)]

/-! ### Helper lemmas: sorting -/

theorem sortByDesc_perm (key : α → Int) (l : List α) : (sortByDesc key l).Perm l :=
  List.perm_insertionSort _ l

theorem sortByDesc_sorted (key : α → Int) (l : List α) :
    (sortByDesc key l).Pairwise (fun a b => key b ≤ key a) :=
  List.sorted_insertionSort (byKeyDesc key) l

theorem sortByAsc_perm (key : α → Int) (l : List α) : (sortByAsc key l).Perm l :=
  List.perm_insertionSort _ l

theorem sortByAsc_sorted (key : α → Int) (l : List α) :
    (sortByAsc key l).Pairwise (fun a b => key a ≤ key b) :=
  List.sorted_insertionSort (byKeyAsc key) l

theorem sortByDesc_idem (key : α → Int) (l : List α) :
    sortByDesc key (sortByDesc key l) = sortByDesc key l :=
  List.Sorted.insertionSort_eq (List.sorted_insertionSort _ l)

/-! ### Helper lemmas: the streak loop -/

theorem currentStreakLoop_eq (now : Int) : ∀ (l : List Workout) (i : Int),
    currentStreakLoop (dayStart now) l i
      = streakOffsets (l.map fun w => dayIndex now - dayIndex w.createdAt) i
  | [], _ => rfl
  | w :: rest, i => by
    have hd := daysDiff_eq now w.createdAt
    simp only [currentStreakLoop, streakOffsets, List.map_cons, hd]
    by_cases hc : dayIndex now - dayIndex w.createdAt = i
    · rw [if_pos hc, if_pos hc, currentStreakLoop_eq now rest (i + 1)]
    · rw [if_neg hc, if_neg hc]

theorem streakOffsets_run : ∀ (l : List Int) (i n : Int), i ≤ n →
    l.Pairwise (· < ·) → (∀ o ∈ l, i ≤ o) →
    (∀ j : Int, i ≤ j → j < n → j ∈ l) → n ∉ l →
    streakOffsets l i = n - i
  | [], i, n, hin, _, _, hmem, _ => by
    have : ¬ i < n := fun h => by simpa using hmem i le_rfl h
    have : n = i := by omega
    simp [streakOffsets, this]
  | o :: rest, i, n, hin, hpair, hlb, hmem, hnmem => by
    have hpair' := List.pairwise_cons.mp hpair
    by_cases ho : o = i
    · have hi_lt : i < n := by
        by_contra hcon
        have hni : n = i := by omega
        exact hnmem (by rw [hni, ← ho]; exact List.mem_cons_self _ _)
      have ih := streakOffsets_run rest (i + 1) n (by omega) hpair'.2
        (fun o' ho' => by have := hpair'.1 o' ho'; omega)
        (fun j hj1 hj2 => by
          rcases List.mem_cons.mp (hmem j (by omega) hj2) with h | h
          · omega
          · exact h)
        (fun hc => hnmem (List.mem_cons_of_mem _ hc))
      simp only [streakOffsets, if_pos ho, ih]
      omega
    · have hio : i < o := lt_of_le_of_ne (hlb o (List.mem_cons_self _ _)) (Ne.symm ho)
      have hni : n = i := by
        by_contra hcon
        have hi_lt : i < n := by omega
        rcases List.mem_cons.mp (hmem i le_rfl hi_lt) with h | h
        · omega
        · have := hpair'.1 i h
          omega
      simp [streakOffsets, ho, hni]

/-! ### Helper lemmas: store operations -/

theorem getUser_id {s : MemStorage} {uid : String} {u : User}
    (h : getUser s uid = some u) : u.id = uid := by
  unfold getUser mapGet at h
  simpa using List.find?_some h

theorem jsOrInt_zero (x : Int) : jsOrInt x 0 = x := by
  unfold jsOrInt
  split <;> omega

theorem updateUser_some {s : MemStorage} {uid : String} {u : User} (p : UserPatch)
    (h : getUser s uid = some u) :
    updateUser s uid p
      = (some (applyPatch u p),
          { s with users := mapSet User.id s.users uid (applyPatch u p) }) := by
  unfold updateUser
  rw [h]

theorem updateUserStreak_none {s : MemStorage} {uid : String} {now : Int}
    (h : getUser s uid = none) : updateUserStreak s uid now = s := by
  unfold updateUserStreak
  rw [h]

theorem updateUserStreak_some {s : MemStorage} {uid : String} {now : Int} {u : User}
    (h : getUser s uid = some u) :
    updateUserStreak s uid now
      = { s with users := mapSet User.id s.users uid (streakUpdatedUser u (computedCurrentStreak s uid now)) } := by
  unfold updateUserStreak
  rw [h]
  simp only [updateUser_some _ h]
  rfl

theorem getUser_updateUserStreak_self {s : MemStorage} {uid : String} {now : Int} {u : User}
    (h : getUser s uid = some u) :
    getUser (updateUserStreak s uid now) uid
      = some (streakUpdatedUser u (computedCurrentStreak s uid now)) := by
  rw [updateUserStreak_some h]
  have hid : (streakUpdatedUser u (computedCurrentStreak s uid now)).id = uid := by
    have h2 := getUser_id h
    simpa [streakUpdatedUser] using h2
  exact mapGet_mapSet_self _ _ _ _ hid

theorem getUser_updateUserStreak_ne {s : MemStorage} {uid uid' : String} {now : Int}
    (hne : uid' ≠ uid) :
    getUser (updateUserStreak s uid now) uid' = getUser s uid' := by
  cases h : getUser s uid with
  | none => rw [updateUserStreak_none h]
  | some u =>
    rw [updateUserStreak_some h]
    have hid : (streakUpdatedUser u (computedCurrentStreak s uid now)).id = uid := by
      have h2 := getUser_id h
      simpa [streakUpdatedUser] using h2
    exact mapGet_mapSet_ne _ _ _ _ _ hid hne

/-! ### Helper lemmas: the day offsets of the sorted workout listing -/

theorem computedCurrentStreak_eq (s : MemStorage) (uid : String) (now : Int) :
    computedCurrentStreak s uid now
      = streakOffsets
          ((getWorkoutsByUserId s uid).map fun w => dayIndex now - dayIndex w.createdAt) 0 := by
  unfold computedCurrentStreak getWorkoutsByUserId
  rw [sortByDesc_idem]
  exact currentStreakLoop_eq now _ 0

theorem offsets_sorted (s : MemStorage) (uid : String) (now : Int) :
    ((getWorkoutsByUserId s uid).map fun w => dayIndex now - dayIndex w.createdAt).Pairwise
      (· ≤ ·) := by
  refine List.pairwise_map.mpr ((sortByDesc_sorted _ _).imp ?_)
  intro a b h
  have := dayIndex_mono h
  omega

theorem offsets_strict (s : MemStorage) (uid : String) (now : Int)
    (hnd : (activeDayList s uid).Nodup) :
    ((getWorkoutsByUserId s uid).map fun w => dayIndex now - dayIndex w.createdAt).Pairwise
      (· < ·) := by
  have hperm : (getWorkoutsByUserId s uid).Perm (workoutsOf s uid) := sortByDesc_perm _ _
  have hp2 : ((getWorkoutsByUserId s uid).map fun w => dayIndex w.createdAt).Perm
      (activeDayList s uid) := hperm.map _
  have hnd' : ((getWorkoutsByUserId s uid).map fun w => dayIndex w.createdAt).Nodup :=
    hp2.nodup_iff.mpr hnd
  have hne : (getWorkoutsByUserId s uid).Pairwise
      (fun a b => dayIndex a.createdAt ≠ dayIndex b.createdAt) :=
    List.pairwise_map.mp hnd'
  have hle : (getWorkoutsByUserId s uid).Pairwise
      (fun a b => dayIndex b.createdAt ≤ dayIndex a.createdAt) := by
    refine (sortByDesc_sorted _ _).imp ?_
    intro a b h
    exact dayIndex_mono h
  refine List.pairwise_map.mpr ((hne.and hle).imp ?_)
  intro a b h
  omega

theorem mem_offsets_iff (s : MemStorage) (uid : String) (now : Int) (j : Int) :
    j ∈ ((getWorkoutsByUserId s uid).map fun w => dayIndex now - dayIndex w.createdAt)
      ↔ (dayIndex now - j) ∈ activeDayList s uid := by
  constructor
  · intro hm
    rcases List.mem_map.mp hm with ⟨w, hw, hj⟩
    have hw' : w ∈ workoutsOf s uid := (sortByDesc_perm _ _).mem_iff.mp hw
    exact List.mem_map.mpr ⟨w, hw', by omega⟩
  · intro hm
    rcases List.mem_map.mp hm with ⟨w, hw, hd⟩
    have hw' : w ∈ getWorkoutsByUserId s uid := (sortByDesc_perm _ _).mem_iff.mpr hw
    exact List.mem_map.mpr ⟨w, hw', by omega⟩

/-! ### The claims -/

/-- C2: with exactly one workout per calendar day, a workout on each of the
`n` consecutive days `today, today-1, …, today-(n-1)` and none on `today-n`
makes the streak computation store `currentStreak = n`; and whenever `today`
itself has no workout the stored `currentStreak` is `0`. -/
theorem C2_consecutive_days_streak :
    (∀ (n : Nat) (s : MemStorage) (uid : String) (u : User) (now : Int),
      getUser s uid = some u →
      (activeDayList s uid).Nodup →
      (∀ j : Nat, j < n → (dayIndex now - j) ∈ activeDayList s uid) →
      (dayIndex now - n) ∉ activeDayList s uid →
      (∀ d ∈ activeDayList s uid, d ≤ dayIndex now) →
      (getUser (updateUserStreak s uid now) uid).map User.currentStreak = some (n : Int)) ∧
    (∀ (s : MemStorage) (uid : String) (u : User) (now : Int),
      getUser s uid = some u →
      dayIndex now ∉ activeDayList s uid →
      (getUser (updateUserStreak s uid now) uid).map User.currentStreak = some 0) := by
  constructor
  · intro n s uid u now hu hnd hmem hnmem hub
    rw [getUser_updateUserStreak_self hu]
    simp only [Option.map_some', streakUpdatedUser]
    rw [computedCurrentStreak_eq]
    have hrun := streakOffsets_run
      ((getWorkoutsByUserId s uid).map fun w => dayIndex now - dayIndex w.createdAt)
      0 n (by omega) (offsets_strict s uid now hnd)
      (fun o ho => by
        have := hub _ ((mem_offsets_iff s uid now o).mp ho)
        omega)
      (fun j hj0 hjn => by
        have hj : (j.toNat : Int) = j := Int.toNat_of_nonneg hj0
        have := hmem j.toNat (by omega)
        refine (mem_offsets_iff s uid now j).mpr ?_
        rw [hj] at this
        exact this)
      (fun hc => hnmem ((mem_offsets_iff s uid now n).mp hc))
    rw [hrun]
    norm_num
  · intro s uid u now hu hnmem
    rw [getUser_updateUserStreak_self hu]
    simp only [Option.map_some', streakUpdatedUser]
    rw [computedCurrentStreak_eq]
    cases hL : (getWorkoutsByUserId s uid).map (fun w => dayIndex now - dayIndex w.createdAt) with
    | nil => rfl
    | cons o rest =>
      have ho : ¬ o = 0 := by
        intro h0
        have hmo : o ∈ (getWorkoutsByUserId s uid).map
            (fun w => dayIndex now - dayIndex w.createdAt) := by
          rw [hL]; exact List.mem_cons_self _ _
        have := (mem_offsets_iff s uid now o).mp hmo
        rw [h0] at this
        simp only [sub_zero] at this
        exact hnmem this
      simp [streakOffsets, ho]

theorem offsets_eq_of_perm (s : MemStorage) (uid : String) (now : Int) (ds : List Int)
    (hperm : (activeDayList s uid).Perm ds)
    (hsorted : (ds.map fun d => dayIndex now - d).Pairwise (· ≤ ·)) :
    ((getWorkoutsByUserId s uid).map fun w => dayIndex now - dayIndex w.createdAt)
      = ds.map fun d => dayIndex now - d := by
  have h1 : ((getWorkoutsByUserId s uid).map fun w => dayIndex now - dayIndex w.createdAt).Perm
      (ds.map fun d => dayIndex now - d) := by
    have hA : ((getWorkoutsByUserId s uid).map fun w => dayIndex w.createdAt).Perm
        (activeDayList s uid) := (sortByDesc_perm _ _).map _
    have hB := (hA.trans hperm).map (fun d => dayIndex now - d)
    simpa [List.map_map, Function.comp] using hB
  exact List.eq_of_perm_of_sorted h1 (offsets_sorted s uid now) hsorted

/-- C1 counterexample: starting from one workout yesterday and one earlier
today, inserting a second workout today stores `currentStreak = 1`, not the
`2` the claim derives from the set of distinct active days. -/
theorem C1_counterexample :
    (getUser (createWorkout c1Store (exInsertWorkout "u1") "w3" exNow).2 "u1").map
        User.currentStreak = some 1 ∧ (1 : Int) ≠ 2 := by
  exact ⟨by decide, by decide⟩

/-- C1 amended: the streak scan does not collapse same-day workouts — it
demands that the i-th most recent workout be exactly i days old, so a
repeated day stops the scan.  Two workouts both created today with no other
activity store `currentStreak = 1`, and two workouts created today plus one
created yesterday also store `currentStreak = 1` (not 2). -/
theorem C1_same_day_amended :
    (∀ (s : MemStorage) (uid : String) (u : User) (now : Int),
      getUser s uid = some u →
      (activeDayList s uid).Perm [dayIndex now, dayIndex now] →
      (getUser (updateUserStreak s uid now) uid).map User.currentStreak = some 1) ∧
    (∀ (s : MemStorage) (uid : String) (u : User) (now : Int),
      getUser s uid = some u →
      (activeDayList s uid).Perm [dayIndex now, dayIndex now, dayIndex now - 1] →
      (getUser (updateUserStreak s uid now) uid).map User.currentStreak = some 1) := by
  constructor
  · intro s uid u now hu hperm
    rw [getUser_updateUserStreak_self hu]
    simp only [Option.map_some', streakUpdatedUser]
    rw [computedCurrentStreak_eq]
    rw [offsets_eq_of_perm s uid now _ hperm (by simp)]
    simp [streakOffsets]
  · intro s uid u now hu hperm
    rw [getUser_updateUserStreak_self hu]
    simp only [Option.map_some', streakUpdatedUser]
    rw [computedCurrentStreak_eq]
    rw [offsets_eq_of_perm s uid now _ hperm (by simp)]
    norm_num [streakOffsets]

/-- C1 amended witness: both same-day scenarios at concrete stores. -/
theorem C1_same_day_amended_witness :
    (getUser (updateUserStreak c1aStore "u1" exNow) "u1").map User.currentStreak = some 1 ∧
    (getUser (updateUserStreak c1bStore "u1" exNow) "u1").map User.currentStreak = some 1 := by
  constructor
  · exact C1_same_day_amended.1 c1aStore "u1" (exUser "u1" 0 0) exNow (by decide) (by decide)
  · exact C1_same_day_amended.2 c1bStore "u1" (exUser "u1" 0 0) exNow (by decide) (by decide)

/-- C2 witness: three workouts on days 20000, 19999, 19998 give streak 3;
a single workout yesterday gives streak 0 today. -/
theorem C2_consecutive_days_streak_witness :
    (getUser (updateUserStreak c2Store "u1" exNow) "u1").map User.currentStreak = some 3 ∧
    (getUser (updateUserStreak c2StoreGap "u1" exNow) "u1").map User.currentStreak = some 0 := by
  constructor
  · exact C2_consecutive_days_streak.1 3 c2Store "u1" (exUser "u1" 0 0) exNow
      (by decide) (by decide) (by decide) (by decide) (by decide)
  · exact C2_consecutive_days_streak.2 c2StoreGap "u1" (exUser "u1" 0 0) exNow
      (by decide) (by decide)

/-! ### C3 machinery -/

theorem createWorkout_snd (s : MemStorage) (iw : InsertWorkout) (id : String) (now : Int) :
    (createWorkout s iw id now).2
      = updateUserStreak
          { s with workouts := mapSet Workout.id s.workouts id (newWorkout iw id now) }
          iw.userId now := rfl

theorem getUser_set_workouts (s : MemStorage) (ws : List Workout) (uid : String) :
    getUser { s with workouts := ws } uid = getUser s uid := rfl

theorem streakUpdatedUser_longest_ge (u : User) (cs : Int) :
    u.longestStreak ≤ (streakUpdatedUser u cs).longestStreak := by
  simp only [streakUpdatedUser, jsOrInt_zero]
  exact le_max_left _ _

theorem createWorkout_longest_mono (s : MemStorage) (iw : InsertWorkout) (id : String)
    (now : Int) (uid : String) (u : User) (hu : getUser s uid = some u) :
    ∃ u', getUser (createWorkout s iw id now).2 uid = some u' ∧
      u.longestStreak ≤ u'.longestStreak := by
  rw [createWorkout_snd]
  set s1 : MemStorage :=
    { s with workouts := mapSet Workout.id s.workouts id (newWorkout iw id now) } with hs1
  have hu1 : getUser s1 uid = some u := hu
  cases h2 : getUser s1 iw.userId with
  | none => exact ⟨u, by rw [updateUserStreak_none h2]; exact hu1, le_rfl⟩
  | some owner =>
    by_cases he : uid = iw.userId
    · have hou : owner = u := by
        rw [he] at hu1
        exact Option.some.inj (h2.symm.trans hu1)
      refine ⟨streakUpdatedUser owner (computedCurrentStreak s1 iw.userId now), ?_, ?_⟩
      · rw [he]
        exact getUser_updateUserStreak_self h2
      · exact hou ▸ streakUpdatedUser_longest_ge owner _
    · exact ⟨u, by rw [getUser_updateUserStreak_ne he]; exact hu1, le_rfl⟩

/-- C3: after every streak recomputation triggered by a workout insertion the
stored `longestStreak` equals `max(previous longestStreak, new currentStreak)`
(the newly computed streak is exactly the stored `currentStreak`), and
`longestStreak` never decreases across any sequence of insertions. -/
theorem C3_longest_ratchet :
    (∀ (s : MemStorage) (iw : InsertWorkout) (id : String) (now : Int) (u u' : User),
      getUser s iw.userId = some u →
      getUser (createWorkout s iw id now).2 iw.userId = some u' →
      u'.longestStreak = max u.longestStreak u'.currentStreak) ∧
    (∀ (ops : List (InsertWorkout × String × Int)) (s : MemStorage) (uid : String) (u : User),
      getUser s uid = some u →
      ∃ u', getUser (createWorkouts s ops) uid = some u' ∧
        u.longestStreak ≤ u'.longestStreak) := by
  constructor
  · intro s iw id now u u' hu hu'
    rw [createWorkout_snd] at hu'
    have h1 : getUser
        { s with workouts := mapSet Workout.id s.workouts id (newWorkout iw id now) }
        iw.userId = some u := hu
    rw [getUser_updateUserStreak_self h1] at hu'
    have he := Option.some.inj hu'
    rw [← he]
    simp only [streakUpdatedUser, jsOrInt_zero]
  · intro ops
    induction ops with
    | nil => exact fun s uid u hu => ⟨u, hu, le_rfl⟩
    | cons op rest ih =>
      intro s uid u hu
      obtain ⟨iw, id, now⟩ := op
      obtain ⟨u1, hu1, hle1⟩ := createWorkout_longest_mono s iw id now uid u hu
      obtain ⟨u2, hu2, hle2⟩ := ih _ uid u1 hu1
      exact ⟨u2, hu2, le_trans hle1 hle2⟩

/-- C3 witness: inserting a first workout today for a fresh user stores
`currentStreak = 1` and `longestStreak = max 0 1 = 1`, and the ratchet holds
along the one-insertion sequence. -/
theorem C3_longest_ratchet_witness :
    (exUser "u1" 1 1).longestStreak
        = max (exUser "u1" 0 0).longestStreak (exUser "u1" 1 1).currentStreak ∧
    ∃ u', getUser (createWorkouts soloStore [(exInsertWorkout "u1", "w1", exNow)]) "u1"
        = some u' ∧ (exUser "u1" 0 0).longestStreak ≤ u'.longestStreak := by
  constructor
  · exact C3_longest_ratchet.1 soloStore (exInsertWorkout "u1") "w1" exNow
      (exUser "u1" 0 0) (exUser "u1" 1 1) (by decide) (by decide)
  · exact C3_longest_ratchet.2 [(exInsertWorkout "u1", "w1", exNow)] soloStore "u1"
      (exUser "u1" 0 0) (by decide)

/-! ### C4 machinery -/

theorem mem_of_getUser {s : MemStorage} {uid : String} {u : User}
    (h : getUser s uid = some u) : u ∈ s.users := by
  unfold getUser mapGet at h
  exact List.mem_of_find?_eq_some h

/-- C4 counterexample: the profile-update path merges the request body
verbatim, so a body carrying `currentStreak = 5` leaves a user with
`currentStreak = 5 > longestStreak = 0`, violating the claimed invariant. -/
theorem C4_counterexample :
    (getUser (routePatchProfile soloStore "u1" c4Patch).2 "u1").map User.currentStreak
        = some 5 ∧
    (getUser (routePatchProfile soloStore "u1" c4Patch).2 "u1").map User.longestStreak
        = some 0 ∧
    ¬ (5 : Int) ≤ 0 := by
  exact ⟨by decide, by decide, by decide⟩

/-- C4 amended: `longestStreak ≥ currentStreak` is established by user
creation and preserved by workout insertion (with its streak recomputation);
the profile-update path preserves it only when the update body leaves both
streak fields untouched — an update that writes them can break it. -/
theorem C4_invariant_amended :
    (∀ (s : MemStorage) (iu : InsertUser) (id : String) (now : Int),
      userInv s → userInv (createUser s iu id now).2) ∧
    (∀ (s : MemStorage) (iw : InsertWorkout) (id : String) (now : Int),
      userInv s → userInv (createWorkout s iw id now).2) ∧
    (∀ (s : MemStorage) (uid : String) (p : UserPatch),
      p.currentStreak = none → p.longestStreak = none →
      userInv s → userInv (updateUser s uid p).2) := by
  refine ⟨?_, ?_, ?_⟩
  · intro s iu id now hinv u hu
    rcases mem_mapSet hu with h | h
    · rw [h]
    · exact hinv u h
  · intro s iw id now hinv
    rw [createWorkout_snd]
    set s1 : MemStorage :=
      { s with workouts := mapSet Workout.id s.workouts id (newWorkout iw id now) } with hs1
    have hinv1 : userInv s1 := hinv
    cases h2 : getUser s1 iw.userId with
    | none =>
      rw [updateUserStreak_none h2]
      exact hinv1
    | some owner =>
      rw [updateUserStreak_some h2]
      intro u hu
      rcases mem_mapSet hu with h | h
      · rw [h]
        simp only [streakUpdatedUser]
        exact le_max_right _ _
      · exact hinv1 u h
  · intro s uid p hcs hls hinv
    unfold updateUser
    cases h : getUser s uid with
    | none => exact hinv
    | some u =>
      intro u' hu'
      rcases mem_mapSet hu' with h' | h'
      · rw [h']
        simp only [applyPatch, hcs, hls, Option.getD_none]
        exact hinv u (mem_of_getUser h)
      · exact hinv u' h'

/-- C4 amended witness: creation, insertion and a streak-free profile update
each preserve the invariant on concrete stores. -/
theorem C4_invariant_amended_witness :
    userInv (createUser emptyStore exInsertUser "u1" 0).2 ∧
    userInv (createWorkout soloStore (exInsertWorkout "u1") "w4" exNow).2 ∧
    userInv (updateUser soloStore "u1" c4GoodPatch).2 := by
  refine ⟨?_, ?_, ?_⟩
  · exact C4_invariant_amended.1 emptyStore exInsertUser "u1" 0 (by unfold userInv; decide)
  · exact C4_invariant_amended.2.1 soloStore (exInsertWorkout "u1") "w4" exNow
      (by unfold userInv; decide)
  · exact C4_invariant_amended.2.2 soloStore "u1" c4GoodPatch (by decide) (by decide)
      (by unfold userInv; decide)

/-! ### C5 machinery -/

theorem round1_zero : round1 0 = 0 := by
  norm_num [round1, jsRound]

/-- C5: `weightProgress` is 0 when the user has fewer than two health-metric
records or no (truthy) baseline weight; otherwise it is the weight of the
most recent record (falling back to the profile weight) minus the weight of
the least recent record in the listing (same fallback), rounded to one
decimal place; in the concrete scenario 180 lbs profile, records 178 (older)
and 175 (newer), it is -3.0. -/
theorem C5_weight_progress :
    (∀ (s : MemStorage) (uid : String) (now : Int),
      ((getHealthMetricsByUserId s uid).length < 2 ∨
        truthyQ ((getUser s uid).bind User.currentWeight) = false) →
      (getDashboardStats s uid now).1.weightProgress = 0) ∧
    (∀ (s : MemStorage) (uid : String) (now : Int) (cw : ℚ),
      2 ≤ (getHealthMetricsByUserId s uid).length →
      (getUser s uid).bind User.currentWeight = some cw → cw ≠ 0 →
      (getDashboardStats s uid now).1.weightProgress
        = round1 (jsOrQ ((getHealthMetricsByUserId s uid).head?.bind HealthMetrics.weight) cw
            - jsOrQ ((getHealthMetricsByUserId s uid).getLast?.bind HealthMetrics.weight) cw)) ∧
    (getDashboardStats c5Store "u1" exNow).1.weightProgress = -3 := by
  refine ⟨?_, ?_, ?_⟩
  · intro s uid now h
    simp only [getDashboardStats]
    rw [if_neg, round1_zero]
    rcases h with h | h
    · exact fun hc => absurd hc.1 (by omega)
    · exact fun hc => absurd hc.2 (by rw [h]; exact Bool.false_ne_true)
  · intro s uid now cw h1 h2 h3
    simp only [getDashboardStats, getLatestHealthMetrics, h2]
    rw [if_pos ⟨h1, by simp [truthyQ, h3]⟩]
    rfl
  · have hm : getHealthMetricsByUserId c5Store "u1"
        = [exMetric "m2" "u1" (some 175) (86400000 * 19995 + 100),
           exMetric "m1" "u1" (some 178) (86400000 * 19990 + 100)] := rfl
    have hu : getUser c5Store "u1" = some c5User := rfl
    simp only [getDashboardStats, getLatestHealthMetrics, hm, hu]
    norm_num [c5User, exUser, exMetric, truthyQ, jsOrQ, round1, jsRound]

/-- C5 witness: a user with no health metrics gets `weightProgress = 0`. -/
theorem C5_weight_progress_witness :
    (getDashboardStats soloStore "u1" exNow).1.weightProgress = 0 :=
  C5_weight_progress.1 soloStore "u1" exNow (Or.inl (by decide))

/-! ### C6 machinery -/

theorem updateUserStreak_workouts (s : MemStorage) (uid : String) (now : Int) :
    (updateUserStreak s uid now).workouts = s.workouts := by
  cases h : getUser s uid with
  | none => rw [updateUserStreak_none h]
  | some u => rw [updateUserStreak_some h]

/-- C6 counterexample: `createWorkout` itself runs the Streak Engine — after
inserting a first workout for a fresh user the user's stored `currentStreak`
moved from 0 to 1, so the owning User entity is not unchanged. -/
theorem C6_counterexample :
    (getUser soloStore "u1").map User.currentStreak = some 0 ∧
    (getUser (createWorkout soloStore (exInsertWorkout "u1") "w6" exNow).2 "u1").map
        User.currentStreak = some 1 ∧
    some (1 : Int) ≠ some 0 := by
  exact ⟨by decide, by decide, by decide⟩

/-- C6 amended: `createWorkout` inserts the workout and then itself invokes
the streak recomputation for the owning user: users other than the owner are
unchanged, the workouts map gains exactly the inserted record, when the owner
exists their streak fields are rewritten to the recomputed values, and when
the owner is unknown every User entity is unchanged.  The API route adds no
further orchestration on top of `createWorkout`. -/
theorem C6_create_workout_recomputes :
    (∀ (s : MemStorage) (iw : InsertWorkout) (id : String) (now : Int) (uid : String),
      uid ≠ iw.userId →
      getUser (createWorkout s iw id now).2 uid = getUser s uid) ∧
    (∀ (s : MemStorage) (iw : InsertWorkout) (id : String) (now : Int),
      (createWorkout s iw id now).2.workouts
        = mapSet Workout.id s.workouts id (newWorkout iw id now)) ∧
    (∀ (s : MemStorage) (iw : InsertWorkout) (id : String) (now : Int) (u : User),
      getUser s iw.userId = some u →
      getUser (createWorkout s iw id now).2 iw.userId
        = some (streakUpdatedUser u (computedCurrentStreak
            { s with workouts := mapSet Workout.id s.workouts id (newWorkout iw id now) }
            iw.userId now))) ∧
    (∀ (s : MemStorage) (iw : InsertWorkout) (id : String) (now : Int) (ruid : String)
      (body : InsertWorkout),
      routePostWorkout s ruid body id now = createWorkout s { body with userId := ruid } id now) := by
  refine ⟨?_, ?_, ?_, ?_⟩
  · intro s iw id now uid hne
    rw [createWorkout_snd, getUser_updateUserStreak_ne hne]
    rfl
  · intro s iw id now
    rw [createWorkout_snd, updateUserStreak_workouts]
  · intro s iw id now u hu
    rw [createWorkout_snd]
    exact getUser_updateUserStreak_self hu
  · intro s iw id now ruid body
    rfl

/-- C6 amended witness: a user other than the owner is untouched by a
concrete insertion. -/
theorem C6_create_workout_recomputes_witness :
    getUser (createWorkout soloStore (exInsertWorkout "u1") "w6" exNow).2 "u2"
      = getUser soloStore "u2" :=
  C6_create_workout_recomputes.1 soloStore (exInsertWorkout "u1") "w6" exNow "u2" (by decide)

/-! ### C7 -/

/-- C7: per-user listings are sorted — workouts and health metrics
most-recent-first by `createdAt`, scheduled workouts soonest-first by
`scheduledDate` — each a permutation of the user's records, and any two
records tied on the sort key keep their insertion order (stability). -/
theorem C7_listing_order :
    (∀ (s : MemStorage) (uid : String),
      (getWorkoutsByUserId s uid).Pairwise (fun a b => b.createdAt ≤ a.createdAt) ∧
      (getWorkoutsByUserId s uid).Perm (workoutsOf s uid) ∧
      (∀ a b : Workout, List.Sublist [a, b] (workoutsOf s uid) →
        a.createdAt = b.createdAt → List.Sublist [a, b] (getWorkoutsByUserId s uid))) ∧
    (∀ (s : MemStorage) (uid : String),
      (getHealthMetricsByUserId s uid).Pairwise (fun a b => b.createdAt ≤ a.createdAt) ∧
      (getHealthMetricsByUserId s uid).Perm (healthMetricsOf s uid) ∧
      (∀ a b : HealthMetrics, List.Sublist [a, b] (healthMetricsOf s uid) →
        a.createdAt = b.createdAt → List.Sublist [a, b] (getHealthMetricsByUserId s uid))) ∧
    (∀ (s : MemStorage) (uid : String),
      (getScheduledWorkoutsByUserId s uid).Pairwise
        (fun a b => a.scheduledDate ≤ b.scheduledDate) ∧
      (getScheduledWorkoutsByUserId s uid).Perm (scheduledWorkoutsOf s uid) ∧
      (∀ a b : ScheduledWorkout, List.Sublist [a, b] (scheduledWorkoutsOf s uid) →
        a.scheduledDate = b.scheduledDate →
        List.Sublist [a, b] (getScheduledWorkoutsByUserId s uid))) := by
  refine ⟨fun s uid => ⟨?_, ?_, ?_⟩, fun s uid => ⟨?_, ?_, ?_⟩, fun s uid => ⟨?_, ?_, ?_⟩⟩
  · exact sortByDesc_sorted _ _
  · exact sortByDesc_perm _ _
  · intro a b hs he
    exact List.pair_sublist_insertionSort (le_of_eq he.symm) hs
  · exact sortByDesc_sorted _ _
  · exact sortByDesc_perm _ _
  · intro a b hs he
    exact List.pair_sublist_insertionSort (le_of_eq he.symm) hs
  · exact sortByAsc_sorted _ _
  · exact sortByAsc_perm _ _
  · intro a b hs he
    exact List.pair_sublist_insertionSort (le_of_eq he) hs

/-- C7 witness: records with tied keys keep their insertion order in each of
the three listings of a concrete store. -/
theorem C7_listing_order_witness :
    List.Sublist [exWorkout "a" "u1" 100, exWorkout "b" "u1" 100]
      (getWorkoutsByUserId c7Store "u1") ∧
    List.Sublist [exMetric "m1" "u1" none 70, exMetric "m2" "u1" none 70]
      (getHealthMetricsByUserId c7Store "u1") ∧
    List.Sublist [exSched "s1" "u1" 300, exSched "s2" "u1" 300]
      (getScheduledWorkoutsByUserId c7Store "u1") := by
  refine ⟨?_, ?_, ?_⟩
  · exact (C7_listing_order.1 c7Store "u1").2.2 _ _ (by decide) (by decide)
  · exact (C7_listing_order.2.1 c7Store "u1").2.2 _ _ (by decide) (by decide)
  · exact (C7_listing_order.2.2 c7Store "u1").2.2 _ _ (by decide) (by decide)

/-! ### C8 -/

/-- C8: the dashboard stats computation is a pure read — it returns the store
unchanged, and an immediately repeated invocation at the same time yields the
identical result. -/
theorem C8_stats_pure :
    ∀ (s : MemStorage) (uid : String) (now : Int),
      (getDashboardStats s uid now).2 = s ∧
      (getDashboardStats (getDashboardStats s uid now).2 uid now).1
        = (getDashboardStats s uid now).1 := by
  intro s uid now
  exact ⟨rfl, rfl⟩

/-! ### C9 -/

theorem getUser_eq_of_users {s s' : MemStorage} (h : s'.users = s.users) (uid : String) :
    getUser s' uid = getUser s uid := by
  unfold getUser
  rw [h]

/-- C9: deleting a workout (directly or through the route, which checks
ownership first) leaves every user record — in particular the streak
fields — exactly as before. -/
theorem C9_delete_preserves_streaks :
    ∀ (s : MemStorage) (requesterId id : String),
      (deleteWorkout s id).2.users = s.users ∧
      (routeDeleteWorkout s requesterId id).2.users = s.users ∧
      (∀ uid, (getUser (routeDeleteWorkout s requesterId id).2 uid).map User.currentStreak
          = (getUser s uid).map User.currentStreak) ∧
      (∀ uid, (getUser (routeDeleteWorkout s requesterId id).2 uid).map User.longestStreak
          = (getUser s uid).map User.longestStreak) := by
  intro s requesterId id
  have hroute : (routeDeleteWorkout s requesterId id).2.users = s.users := by
    unfold routeDeleteWorkout
    split
    · rfl
    · split
      · rfl
      · rfl
  refine ⟨rfl, hroute, ?_, ?_⟩
  · intro uid
    rw [getUser_eq_of_users hroute uid]
  · intro uid
    rw [getUser_eq_of_users hroute uid]

/-! ### C10 -/

/-- C10: inserting a workout for an unknown `userId` still inserts and
returns the record — the streak recomputation returns early — and every User
entity is unchanged. -/
theorem C10_create_workout_unknown_user :
    ∀ (s : MemStorage) (iw : InsertWorkout) (id : String) (now : Int),
      getUser s iw.userId = none →
      (createWorkout s iw id now).1 = newWorkout iw id now ∧
      getWorkout (createWorkout s iw id now).2 id = some (newWorkout iw id now) ∧
      (createWorkout s iw id now).2.users = s.users := by
  intro s iw id now h
  have h1 : getUser
      { s with workouts := mapSet Workout.id s.workouts id (newWorkout iw id now) }
      iw.userId = none := h
  refine ⟨rfl, ?_, ?_⟩
  · unfold getWorkout
    rw [show (createWorkout s iw id now).2.workouts
        = mapSet Workout.id s.workouts id (newWorkout iw id now) by
      rw [createWorkout_snd, updateUserStreak_workouts]]
    exact mapGet_mapSet_self _ _ _ _ rfl
  · rw [createWorkout_snd, updateUserStreak_none h1]

/-- C10 witness: inserting for a ghost user into the empty store. -/
theorem C10_create_workout_unknown_user_witness :
    (createWorkout emptyStore (exInsertWorkout "ghost") "w1" exNow).1
        = newWorkout (exInsertWorkout "ghost") "w1" exNow ∧
    getWorkout (createWorkout emptyStore (exInsertWorkout "ghost") "w1" exNow).2 "w1"
        = some (newWorkout (exInsertWorkout "ghost") "w1" exNow) ∧
    (createWorkout emptyStore (exInsertWorkout "ghost") "w1" exNow).2.users
        = emptyStore.users :=
  C10_create_workout_unknown_user emptyStore (exInsertWorkout "ghost") "w1" exNow (by decide)

end Fitness
